import Mathlib

/-!
# URL shortener: link registry of `Frontend Test Submission/src/App.js`

A shallow embedding of the component `URLShortenerApp`: the link list kept in
the `urls` state, the form handler `handleSubmit` (create), the click handler
`handleRedirect` (resolve) and the three summary figures of `StatisticsPage`.

Modelling conventions.

* JavaScript numbers that hold integers (time values in milliseconds, the
  validity period, click counters) are `Int` / `Nat`.  A `Date` is an
  `Option Int`: `some tv` is a date with time value `tv`, `none` is the
  Invalid Date that `new Date(x)` yields when `x` lies outside the range
  of plus or minus 8.64e15 ms.  The form only ever holds an integer validity
  period (`parseInt(...) || 30`).  Past the validation it is at least 1, and
  with a clock reading of at least 0 the value
  `Date.now() + validityPeriod * 60000` is computed exactly in doubles whenever
  it is inside that range (every integer below `2^53` is a double), and is
  outside it in doubles whenever it is outside it exactly, so the integer model
  and the double arithmetic give the same `Date`.
* Every read of the clock (`Date.now()`, `new Date()`) is an explicit argument.
* `Math.random()` is a stream of doubles in `[0, 1)`, held as rationals
  (`isUnitDouble`).  The product `Math.random() * chars.length` is the exact
  product rounded to the nearest double, ties to even (`roundDouble`), and
  `Math.floor` is the floor of that rounded value.
* The counter `clicks` is a `Nat`; `clicks + 1` is exact in doubles below `2^53`.
* `new URL(url)` is the platform parser; whether it throws is a parameter.
* A handler runs on the current value of the state `urls`; `setUrls`,
  `setErrors`, `setFormData` become fields of the returned record; `logEvent`,
  `alert` and `window.open` become a list of effects.
-/

namespace URLShortener

/-! ## Data model -/

/-- A JavaScript `Date`; `none` is the Invalid Date. -/
abbrev JSDate := Option Int

/-- Largest time value a `Date` can hold, in milliseconds. -/
def maxTimeValue : Int := 8640000000000000

/-- The constructor `new Date(tv)` for a numeric time value. -/
def newDate (tv : Int) : JSDate :=
  if -maxTimeValue ≤ tv ∧ tv ≤ maxTimeValue then some tv else none

/-- The comparison `a > b` of two dates: false as soon as one is invalid. -/
def dateGt (a b : JSDate) : Bool :=
  match a, b with
  | some x, some y => decide (y < x)
  | _, _ => false

/-- The comparison `a <= b` of two dates: false as soon as one is invalid. -/
def dateLe (a b : JSDate) : Bool :=
  match a, b with
  | some x, some y => decide (x ≤ y)
  | _, _ => false

/-- The object `clickData` built by `handleRedirect`. -/
structure ClickData where
  timestamp : JSDate
  source : String
  location : String
  deriving DecidableEq

/-- The object `newUrl` built by `handleSubmit`, one entry of `urls`. -/
structure Link where
  id : Int
  originalUrl : String
  shortcode : String
  shortUrl : String
  expiryDate : JSDate
  createdAt : JSDate
  clicks : Nat
  clickDetails : List ClickData
  deriving DecidableEq

/-- The state `formData`; `validityPeriod` is the integer kept by the input
handler (`parseInt(e.target.value) || 30`). -/
structure FormData where
  originalUrl : String
  validityPeriod : Int
  customShortcode : String
  deriving DecidableEq

/-- The object `newErrors`: one optional message per form field. -/
structure Errors where
  originalUrl : Option String
  validityPeriod : Option String
  customShortcode : Option String
  deriving DecidableEq

/-- The empty object of `setErrors` on success. -/
def Errors.empty : Errors :=
  { originalUrl := none, validityPeriod := none, customShortcode := none }

/-- The array `Object.keys(newErrors)`. -/
def Errors.keys (e : Errors) : List String :=
  (if e.originalUrl.isSome then ["originalUrl"] else []) ++
  (if e.validityPeriod.isSome then ["validityPeriod"] else []) ++
  (if e.customShortcode.isSome then ["customShortcode"] else [])

/-- The second argument of `logEvent`, one shape per call site. -/
inductive LogData where
  | validationError (errors : Errors)
  | urlCreated (shortcode originalUrl : String) (expiryDate : JSDate)
  | shortcodeOnly (shortcode : String)
  | urlClicked (shortcode originalUrl : String) (clickData : ClickData)
  deriving DecidableEq

/-- What a handler does besides updating the state. -/
inductive Effect where
  | logEvent (eventType : String) (data : LogData)
  | alert (message : String)
  | windowOpen (url target : String)
  deriving DecidableEq

/-! ## Short codes -/

/-- The constant `chars` of `generateShortcode`. -/
def chars : String := "abcdefghijklmnopqrstuvwxyzABCDEFGHIJKLMNOPQRSTUVWXYZ0123456789"

/-- The method `s.charAt(k)`: the character at index `k` as a string, the empty
string when `k` is out of range. -/
def charAt (s : String) (k : Int) : String :=
  if k < 0 then ""
  else
    match s.data.get? k.toNat with
    | some c => String.singleton c
    | none => ""

/-- Rounding of a rational to the nearest integer, a tie going to the even one. -/
def roundTiesEven (q : ℚ) : Int :=
  if q - ⌊q⌋ < 1 / 2 then ⌊q⌋
  else if 1 / 2 < q - ⌊q⌋ then ⌊q⌋ + 1
  else if ⌊q⌋ % 2 = 0 then ⌊q⌋ else ⌊q⌋ + 1

/-- The double (IEEE 754 binary64) nearest to `x`, ties to even, for `0 ≤ x`
below the overflow threshold: in the binade `[2^e, 2^(e+1))` the doubles are the
multiples of `2^(e-52)`, with `e` at least `-1022` (below, the subnormal
spacing `2^-1074`). This is the rounding of the product of two doubles. -/
def roundDouble (x : ℚ) : ℚ :=
  if x = 0 then 0
  else (roundTiesEven (x / 2 ^ (max (Int.log 2 x) (-1022) - 52)) : ℚ) *
    2 ^ (max (Int.log 2 x) (-1022) - 52)

/-- The values `Math.random()` can return: the doubles in `[0, 1)`, that is
`m / 2^k` with `m < 2^53`, `k ≤ 1074` and value below 1. -/
def isUnitDouble (r : ℚ) : Prop :=
  ∃ m k : Nat, m < 2 ^ 53 ∧ k ≤ 1074 ∧ r = (m : ℚ) / 2 ^ k ∧ r < 1

/-- The function `generateShortcode`; `random i` is the value returned by the
call of `Math.random()` in iteration `i` of the loop, and the product with
`chars.length` is rounded to a double before `Math.floor`. -/
def generateShortcode (random : Nat → ℚ) : String :=
  (List.range 6).foldl
    (fun result i =>
      result ++ charAt chars ⌊roundDouble (random i * (chars.length : ℚ))⌋) ""

/-- One character of the class `[a-zA-Z0-9]`. -/
def isAlnum (c : Char) : Bool :=
  ('a' ≤ c && c ≤ 'z') || ('A' ≤ c && c ≤ 'Z') || ('0' ≤ c && c ≤ '9')

/-- The function `isValidShortcode`: the test of `/^[a-zA-Z0-9]{3,10}$/`. -/
def isValidShortcode (shortcode : String) : Bool :=
  decide (3 ≤ shortcode.length) && decide (shortcode.length ≤ 10) &&
    shortcode.data.all isAlnum

/-! ## Create -/

/-- What `handleSubmit` reads from outside the component state. -/
structure SubmitEnv where
  /-- Whether `new URL(url)` returns instead of throwing. -/
  urlParses : String → Bool
  /-- The successive results of `Math.random()`. -/
  random : Nat → ℚ
  /-- The value of `Date.now()` in the computation of `expiryDate`. -/
  nowExpiry : Int
  /-- The value of `Date.now()` stored in `id`. -/
  nowId : Int
  /-- The time value of the `new Date()` stored in `createdAt`. -/
  nowCreated : Int

/-- The function `isValidUrl`. -/
def isValidUrl (env : SubmitEnv) (url : String) : Bool := env.urlParses url

/-- The three validation blocks of `handleSubmit`, giving `newErrors`. -/
def validate (env : SubmitEnv) (urls : List Link) (formData : FormData) : Errors :=
  { originalUrl :=
      if formData.originalUrl = "" then some "Original URL is required"
      else if !isValidUrl env formData.originalUrl then some "Please enter a valid URL"
      else none
    validityPeriod :=
      if formData.validityPeriod < 1 then some "Validity period must be at least 1 minute"
      else none
    customShortcode :=
      if formData.customShortcode ≠ "" then
        if !isValidShortcode formData.customShortcode then
          some "Shortcode must be 3-10 alphanumeric characters"
        else if urls.any (fun url => url.shortcode == formData.customShortcode) then
          some "This shortcode is already taken"
        else none
      else none }

/-- The state after `handleSubmit` and its effects. -/
structure SubmitResult where
  urls : List Link
  formData : FormData
  errors : Errors
  effects : List Effect
  deriving DecidableEq

/-- The object `newUrl` of `handleSubmit`. -/
def newUrl (env : SubmitEnv) (formData : FormData) : Link :=
  let shortcode :=
    if formData.customShortcode ≠ "" then formData.customShortcode
    else generateShortcode env.random
  let expiryDate := newDate (env.nowExpiry + formData.validityPeriod * 60000)
  { id := env.nowId
    originalUrl := formData.originalUrl
    shortcode := shortcode
    shortUrl := "http://localhost:3000/" ++ shortcode
    expiryDate := expiryDate
    createdAt := some env.nowCreated
    clicks := 0
    clickDetails := [] }

/-- The handler `handleSubmit`, run on the link list `urls` with the form
holding `formData`. -/
def handleSubmit (env : SubmitEnv) (urls : List Link) (formData : FormData) : SubmitResult :=
  let newErrors := validate env urls formData
  if newErrors.keys.length > 0 then
    { urls := urls
      formData := formData
      errors := newErrors
      effects := [Effect.logEvent "VALIDATION_ERROR" (LogData.validationError newErrors)] }
  else
    let link := newUrl env formData
    { urls := urls ++ [link]
      formData := { originalUrl := "", validityPeriod := 30, customShortcode := "" }
      errors := Errors.empty
      effects :=
        [Effect.logEvent "URL_CREATED"
          (LogData.urlCreated link.shortcode formData.originalUrl link.expiryDate)] }

/-! ## Resolve -/

/-- The state after `handleRedirect` and its effects. -/
structure RedirectResult where
  urls : List Link
  effects : List Effect
  deriving DecidableEq

/-- The handler `handleRedirect`; `nowCheck` is the time value of the
`new Date()` compared with the expiry, `nowClick` that of the click record. -/
def handleRedirect (nowCheck nowClick : Int) (urls : List Link) (shortcode : String) :
    RedirectResult :=
  match urls.find? (fun u => u.shortcode == shortcode) with
  | none =>
    { urls := urls
      effects := [Effect.logEvent "URL_NOT_FOUND" (LogData.shortcodeOnly shortcode)] }
  | some url =>
    if dateGt (some nowCheck) url.expiryDate then
      { urls := urls
        effects :=
          [Effect.logEvent "URL_EXPIRED" (LogData.shortcodeOnly shortcode),
           Effect.alert "This shortened URL has expired"] }
    else
      let clickData : ClickData :=
        { timestamp := some nowClick, source := "direct", location := "Kanpur, India" }
      { urls := urls.map (fun u =>
          if u.shortcode == shortcode then
            { u with clicks := u.clicks + 1, clickDetails := u.clickDetails ++ [clickData] }
          else u)
        effects :=
          [Effect.logEvent "URL_CLICKED"
            (LogData.urlClicked shortcode url.originalUrl clickData),
           Effect.windowOpen url.originalUrl "_blank"] }

/-- The URLs a run passed to `window.open`. -/
def openedUrls (effects : List Effect) : List String :=
  effects.filterMap (fun e =>
    match e with
    | Effect.windowOpen url _ => some url
    | _ => none)

/-! ## Statistics -/

/-- The figure `urls.length` of the statistics page. -/
def totalLinks (urls : List Link) : Nat := urls.length

/-- The figure `urls.reduce((sum, url) => sum + url.clicks, 0)`. -/
def totalClicks (urls : List Link) : Nat :=
  urls.foldl (fun sum url => sum + url.clicks) 0

/-- The array `urls.filter(url => new Date() <= url.expiryDate)`; the callback
reads the clock once per element, `clock i` is the reading for index `i`. -/
def activeFrom (clock : Nat → Int) : Nat → List Link → List Link
  | _, [] => []
  | i, url :: rest =>
    if dateLe (some (clock i)) url.expiryDate then url :: activeFrom clock (i + 1) rest
    else activeFrom clock (i + 1) rest

/-- The figure `urls.filter(url => new Date() <= url.expiryDate).length`. -/
def activeLinks (clock : Nat → Int) (urls : List Link) : Nat :=
  (activeFrom clock 0 urls).length

/-! ## Reachable registry states -/

/-- The link lists the two handlers can produce from the empty list. The draws
of `Math.random()` are doubles in `[0, 1)`; forms, clock readings and the
platform parser are arbitrary. -/
inductive Reachable : List Link → Prop where
  | init : Reachable []
  | create (env : SubmitEnv) (formData : FormData) (urls : List Link) :
      Reachable urls → (∀ i, isUnitDouble (env.random i)) →
      Reachable (handleSubmit env urls formData).urls
  | resolve (nowCheck nowClick : Int) (shortcode : String) (urls : List Link) :
      Reachable urls → Reachable (handleRedirect nowCheck nowClick urls shortcode).urls

/-! ## Sample inputs -/

/-- A stand-in for the platform parser in the concrete runs below: it accepts
the strings that begin with `https://`. -/
def httpsOnly (url : String) : Bool := "https://".data.isPrefixOf url.data

/-- A stream of draws: draw `i` is the double `(2 * (i mod 6) + 1) / 128`, so
the six draws of one call of `generateShortcode` select the indices 0 to 5. -/
def sampleRandom (i : Nat) : ℚ := ((2 * (i % 6) + 1 : ℕ) : ℚ) / 128

/-- A stream that always draws the double `1162219258676257 / 2^52`: its exact
product with 62 is `16 - 2^-51`, which rounds to the double 16. -/
def edgeRandom (_ : Nat) : ℚ := 1162219258676257 / 2 ^ 52

/-- A first submission at clock reading 1000 ms. -/
def firstEnv : SubmitEnv :=
  { urlParses := httpsOnly, random := sampleRandom,
    nowExpiry := 1000, nowId := 1000, nowCreated := 1000 }

/-- A second submission at clock reading 2000 ms, with the same draws. -/
def secondEnv : SubmitEnv :=
  { urlParses := httpsOnly, random := sampleRandom,
    nowExpiry := 2000, nowId := 2000, nowCreated := 2000 }

/-- A submission during which the clock advances from 1000 ms to 1001 ms between
the computation of `expiryDate` and the `new Date()` of `createdAt`. -/
def tickEnv : SubmitEnv :=
  { urlParses := httpsOnly, random := sampleRandom,
    nowExpiry := 1000, nowId := 1000, nowCreated := 1001 }

/-- A form with the custom code `abcdef`. -/
def customForm : FormData :=
  { originalUrl := "https://example.com/old", validityPeriod := 30,
    customShortcode := "abcdef" }

/-- A form without custom code. -/
def autoForm : FormData :=
  { originalUrl := "https://example.com/new", validityPeriod := 30, customShortcode := "" }

/-- The form of the scenario `create("https://example.com/path", 1)`. -/
def oneMinuteForm : FormData :=
  { originalUrl := "https://example.com/path", validityPeriod := 1, customShortcode := "" }

/-- A form whose validity period is typed as fifteen nines. -/
def hugeForm : FormData :=
  { originalUrl := "https://example.com/path", validityPeriod := 999999999999999,
    customShortcode := "" }

/-- The form of the scenario `create("not-a-url", 30)`. -/
def notAUrlForm : FormData :=
  { originalUrl := "not-a-url", validityPeriod := 30, customShortcode := "" }

/-- The registry after submitting `customForm` on the empty list. -/
def oneLink : List Link := (handleSubmit firstEnv [] customForm).urls

/-- The registry after submitting `autoForm` on `oneLink`. -/
def twoLinks : List Link := (handleSubmit secondEnv oneLink autoForm).urls

/-! ## Validation and creation -/

/-- The test `Object.keys(newErrors).length > 0` holds exactly when a field carries a
message. -/
theorem keys_length_pos_iff (e : Errors) :
    e.keys.length > 0 ↔
      (e.originalUrl.isSome ∨ e.validityPeriod.isSome ∨ e.customShortcode.isSome) := by
  obtain ⟨a, b, c⟩ := e
  cases a <;> cases b <;> cases c <;> simp [Errors.keys]

/-- The test `urls.some(url => url.shortcode === c)` holds exactly when a stored link
has the code `c`. -/
theorem any_shortcode_iff (urls : List Link) (c : String) :
    urls.any (fun url => url.shortcode == c) = true ↔ ∃ u ∈ urls, u.shortcode = c := by
  simp [List.any_eq_true]

/-- The form passes the three validation blocks. -/
theorem validate_keys_nil_iff (env : SubmitEnv) (urls : List Link) (formData : FormData) :
    ¬ ((validate env urls formData).keys.length > 0) ↔
      (formData.originalUrl ≠ "" ∧ env.urlParses formData.originalUrl = true ∧
        1 ≤ formData.validityPeriod ∧
        (formData.customShortcode = "" ∨
          (isValidShortcode formData.customShortcode = true ∧
            ∀ u ∈ urls, u.shortcode ≠ formData.customShortcode))) := by
  rw [keys_length_pos_iff]
  simp only [validate, isValidUrl]
  by_cases h1 : formData.originalUrl = "" <;> by_cases h2 : env.urlParses formData.originalUrl = true <;>
    by_cases h3 : formData.validityPeriod < 1 <;> by_cases h4 : formData.customShortcode = "" <;>
    by_cases h5 : isValidShortcode formData.customShortcode = true <;>
    by_cases h6 : urls.any (fun url => url.shortcode == formData.customShortcode) = true <;>
    simp [h1, h2, h3, h4, h5, h6] <;>
    first
      | omega
      | (intro _; simpa using h6)
      | exact ⟨by omega, by simpa using h6⟩

/-- The constant `chars` has 62 characters. -/
theorem chars_length : chars.length = 62 := by decide

/-- Every character of `chars` is in the class `[a-zA-Z0-9]`. -/
theorem chars_all_alnum : chars.data.all isAlnum = true := by decide

/-- The rounded integer is at least the floor. -/
theorem roundTiesEven_floor_le (q : ℚ) : ⌊q⌋ ≤ roundTiesEven q := by
  unfold roundTiesEven
  split_ifs <;> omega

/-- The rounded integer is at most the floor plus one. -/
theorem roundTiesEven_le_floor_succ (q : ℚ) : roundTiesEven q ≤ ⌊q⌋ + 1 := by
  unfold roundTiesEven
  split_ifs <;> omega

/-- A fractional part below one half rounds down. -/
theorem roundTiesEven_of_frac_lt (q : ℚ) (h : q - ⌊q⌋ < 1 / 2) : roundTiesEven q = ⌊q⌋ := by
  unfold roundTiesEven
  rw [if_pos h]

/-- An integer rounds to itself. -/
theorem roundTiesEven_intCast (n : Int) : roundTiesEven (n : ℚ) = n := by
  rw [roundTiesEven_of_frac_lt] <;> simp

/-- A double in `[0, 1)` is at least 0 and at most `1 - 2^-53`. -/
theorem isUnitDouble_bounds (r : ℚ) (h : isUnitDouble r) :
    0 ≤ r ∧ r * 2 ^ 53 ≤ 2 ^ 53 - 1 := by
  obtain ⟨m, k, hm, _, hr, hlt⟩ := h
  have hP : (0 : ℚ) < 2 ^ k := by positivity
  have hmq : (m : ℚ) < 2 ^ k := by
    rw [hr, div_lt_one hP] at hlt
    exact hlt
  have hmk : m < 2 ^ k := by exact_mod_cast hmq
  constructor
  · rw [hr]; positivity
  · rw [hr, div_mul_eq_mul_div, div_le_iff₀ hP]
    have key : m * 2 ^ 53 ≤ (2 ^ 53 - 1) * 2 ^ k := by
      rcases Nat.le_total k 53 with hk | hk
      · have h1 : 2 ^ k ≤ 2 ^ 53 := Nat.pow_le_pow_right (by norm_num) hk
        have h2 : m + 1 ≤ 2 ^ k := hmk
        have h3 : (m + 1) * 2 ^ 53 ≤ 2 ^ k * 2 ^ 53 := Nat.mul_le_mul_right _ h2
        have h4 : (2 ^ 53 - 1) * 2 ^ k + 2 ^ k = 2 ^ k * 2 ^ 53 := by
          rw [← Nat.succ_mul, Nat.mul_comm]
          rfl
        omega
      · have h1 : 2 ^ 53 ≤ 2 ^ k := Nat.pow_le_pow_right (by norm_num) hk
        have h2 : m ≤ 2 ^ 53 - 1 := Nat.le_sub_one_of_lt hm
        calc m * 2 ^ 53 ≤ (2 ^ 53 - 1) * 2 ^ 53 := Nat.mul_le_mul_right _ h2
          _ ≤ (2 ^ 53 - 1) * 2 ^ k := Nat.mul_le_mul_left _ h1
    have : ((m * 2 ^ 53 : ℕ) : ℚ) ≤ (((2 ^ 53 - 1) * 2 ^ k : ℕ) : ℚ) := by exact_mod_cast key
    have h53 : (((2 ^ 53 - 1 : ℕ)) : ℚ) = 2 ^ 53 - 1 := by norm_num
    rw [Nat.cast_mul, Nat.cast_mul, h53] at this
    push_cast at this
    exact this

/-- The rounding of a non-negative value is non-negative. -/
theorem roundDouble_nonneg (x : ℚ) (hx : 0 ≤ x) : 0 ≤ roundDouble x := by
  unfold roundDouble
  split_ifs with h0
  · exact le_refl 0
  · have hu : (0 : ℚ) < 2 ^ (max (Int.log 2 x) (-1022) - 52) := zpow_pos (by norm_num) _
    have hq : 0 ≤ x / 2 ^ (max (Int.log 2 x) (-1022) - 52) := div_nonneg hx hu.le
    have hf : (0 : Int) ≤ roundTiesEven (x / 2 ^ (max (Int.log 2 x) (-1022) - 52)) :=
      le_trans (Int.floor_nonneg.mpr hq) (roundTiesEven_floor_le _)
    exact mul_nonneg (by exact_mod_cast hf) hu.le

/-- The rounding of a value of a binade is at most the upper end of that binade. -/
theorem roundDouble_le_binade (x : ℚ) (hx : 0 < x) (e : Int)
    (he : max (Int.log 2 x) (-1022) ≤ e) : roundDouble x ≤ 2 ^ (e + 1) := by
  have h2 : (0 : ℚ) < 2 := by norm_num
  have hu : (0 : ℚ) < 2 ^ (max (Int.log 2 x) (-1022) - 52) := zpow_pos h2 _
  have hlt : x < 2 ^ (max (Int.log 2 x) (-1022) + 1) := by
    have h1 := Int.lt_zpow_succ_log_self (b := 2) (by norm_num) x
    rw [Nat.cast_ofNat] at h1
    exact lt_of_lt_of_le h1 (zpow_le_zpow_right₀ (by norm_num) (by omega))
  have hq : x / 2 ^ (max (Int.log 2 x) (-1022) - 52) < ((2 ^ 53 : Int) : ℚ) := by
    rw [div_lt_iff₀ hu]
    have : ((2 ^ 53 : Int) : ℚ) * 2 ^ (max (Int.log 2 x) (-1022) - 52) =
        2 ^ (max (Int.log 2 x) (-1022) + 1) := by
      have h53 : ((2 ^ 53 : Int) : ℚ) = (2 : ℚ) ^ (53 : Int) := by norm_num
      rw [h53, ← zpow_add₀ (by norm_num : (2 : ℚ) ≠ 0)]
      congr 1
      omega
    rw [this]
    exact hlt
  have hfl : ⌊x / 2 ^ (max (Int.log 2 x) (-1022) - 52)⌋ < 2 ^ 53 := Int.floor_lt.mpr hq
  have hr : roundTiesEven (x / 2 ^ (max (Int.log 2 x) (-1022) - 52)) ≤ 2 ^ 53 := by
    have := roundTiesEven_le_floor_succ (x / 2 ^ (max (Int.log 2 x) (-1022) - 52))
    omega
  unfold roundDouble
  rw [if_neg (ne_of_gt hx)]
  calc (roundTiesEven (x / 2 ^ (max (Int.log 2 x) (-1022) - 52)) : ℚ) *
        2 ^ (max (Int.log 2 x) (-1022) - 52)
      ≤ ((2 ^ 53 : Int) : ℚ) * 2 ^ (max (Int.log 2 x) (-1022) - 52) :=
        mul_le_mul_of_nonneg_right (by exact_mod_cast hr) hu.le
    _ = 2 ^ (max (Int.log 2 x) (-1022) + 1) := by
        have h53 : ((2 ^ 53 : Int) : ℚ) = (2 : ℚ) ^ (53 : Int) := by norm_num
        rw [h53, ← zpow_add₀ (by norm_num : (2 : ℚ) ≠ 0)]
        congr 1
        omega
    _ ≤ 2 ^ (e + 1) := zpow_le_zpow_right₀ (by norm_num) (by omega)

/-- The binary exponent of a value of the binade `[2^e, 2^(e+1))` is `e`. -/
theorem log_eq_of_binade (x : ℚ) (e : Int) (h1 : 2 ^ e ≤ x) (h2 : x < 2 ^ (e + 1)) :
    Int.log 2 x = e := by
  have hx : 0 < x := lt_of_lt_of_le (zpow_pos (by norm_num) e) h1
  have ha : e ≤ Int.log 2 x := by
    rw [← Int.zpow_le_iff_le_log (by norm_num) hx, Nat.cast_ofNat]
    exact h1
  have hb : Int.log 2 x < e + 1 := by
    rw [← Int.lt_zpow_iff_log_lt (by norm_num) hx, Nat.cast_ofNat]
    exact h2
  omega

/-- The rounding of a value of a normal binade: the nearest multiple of `2^(e-52)`. -/
theorem roundDouble_of_binade (x : ℚ) (e : Int) (he : -1022 ≤ e) (h1 : 2 ^ e ≤ x)
    (h2 : x < 2 ^ (e + 1)) :
    roundDouble x = (roundTiesEven (x / 2 ^ (e - 52)) : ℚ) * 2 ^ (e - 52) := by
  have hx : 0 < x := lt_of_lt_of_le (zpow_pos (by norm_num) e) h1
  have hlog := log_eq_of_binade x e h1 h2
  unfold roundDouble
  rw [if_neg (ne_of_gt hx), hlog, max_eq_left he]

/-- A multiple of the spacing of its binade is a double: it rounds to itself. -/
theorem roundDouble_exact (x : ℚ) (e n : Int) (he : -1022 ≤ e) (h1 : 2 ^ e ≤ x)
    (h2 : x < 2 ^ (e + 1)) (hn : x = (n : ℚ) * 2 ^ (e - 52)) : roundDouble x = x := by
  have hu : (2 : ℚ) ^ (e - 52) ≠ 0 := ne_of_gt (zpow_pos (by norm_num) _)
  rw [roundDouble_of_binade x e he h1 h2]
  have hq : x / 2 ^ (e - 52) = (n : ℚ) := by
    rw [hn, mul_div_assoc, div_self hu, mul_one]
  rw [hq, roundTiesEven_intCast, ← hn]

/-- From 32 up to `62 * (1 - 2^-53)` the rounding stays below 62: the spacing there is
`2^-47` and the value is within `2^-52` of `62 - 2^-47` or below it. -/
theorem roundDouble_top_binade (x : ℚ) (h1 : 32 ≤ x) (h2 : x * 2 ^ 53 ≤ 62 * (2 ^ 53 - 1)) :
    roundDouble x < 62 := by
  have hx64 : x < 64 := by
    have : x * 2 ^ 53 < 64 * 2 ^ 53 := by linarith
    exact lt_of_mul_lt_mul_right this (by norm_num)
  have hb1 : (2 : ℚ) ^ (5 : Int) ≤ x := by norm_num; exact h1
  have hb2 : x < (2 : ℚ) ^ ((5 : Int) + 1) := by norm_num; exact hx64
  rw [roundDouble_of_binade x 5 (by norm_num) hb1 hb2]
  have hu : (2 : ℚ) ^ ((5 : Int) - 52) = 1 / 2 ^ 47 := by norm_num
  rw [hu]
  have hq : x / (1 / 2 ^ 47) = x * 2 ^ 47 := by field_simp
  rw [hq]
  have hqle : x * 2 ^ 47 ≤ 8725724278030336 - 31 / 32 := by
    have : x * 2 ^ 53 = (x * 2 ^ 47) * 64 := by ring
    rw [this] at h2
    linarith
  have hfl : ⌊x * 2 ^ 47⌋ ≤ 8725724278030335 := by
    have : ⌊x * 2 ^ 47⌋ < 8725724278030336 := by
      rw [Int.floor_lt]
      push_cast
      linarith
    omega
  have hr : roundTiesEven (x * 2 ^ 47) ≤ 8725724278030335 := by
    rcases lt_or_le ⌊x * 2 ^ 47⌋ 8725724278030335 with hlt | hge
    · have := roundTiesEven_le_floor_succ (x * 2 ^ 47)
      omega
    · have heq : ⌊x * 2 ^ 47⌋ = 8725724278030335 := le_antisymm hfl hge
      rw [roundTiesEven_of_frac_lt]
      · exact hfl
      · rw [heq]
        push_cast
        linarith
  have hrq : (roundTiesEven (x * 2 ^ 47) : ℚ) ≤ 8725724278030335 := by exact_mod_cast hr
  have h47 : (0 : ℚ) < 1 / 2 ^ 47 := by positivity
  calc (roundTiesEven (x * 2 ^ 47) : ℚ) * (1 / 2 ^ 47)
      ≤ 8725724278030335 * (1 / 2 ^ 47) := mul_le_mul_of_nonneg_right hrq h47.le
    _ < 62 := by norm_num

/-- For a double draw in `[0, 1)` the index `Math.floor(r * chars.length)`, taken on
the rounded product, lies in `0..61`. -/
theorem floor_index (r : ℚ) (h : isUnitDouble r) :
    0 ≤ ⌊roundDouble (r * (chars.length : ℚ))⌋ ∧
      ⌊roundDouble (r * (chars.length : ℚ))⌋ < 62 := by
  obtain ⟨h0, h1⟩ := isUnitDouble_bounds r h
  have hx0 : 0 ≤ r * 62 := by positivity
  rw [chars_length]
  push_cast
  refine ⟨Int.floor_nonneg.mpr (roundDouble_nonneg _ hx0), ?_⟩
  rw [Int.floor_lt]
  push_cast
  rcases eq_or_lt_of_le hx0 with hz | hpos
  · rw [← hz]
    simp [roundDouble]
  · rcases lt_or_le (r * 62) 32 with hlt | hge
    · have hlog : Int.log 2 (r * 62) < 5 := by
        rw [← Int.lt_zpow_iff_log_lt (by norm_num) hpos]
        norm_num
        exact hlt
      have := roundDouble_le_binade (r * 62) hpos 4 (by omega)
      norm_num at this
      linarith
    · apply roundDouble_top_binade _ hge
      have : r * 62 * 2 ^ 53 = 62 * (r * 2 ^ 53) := by ring
      rw [this]
      linarith

/-- For an index in `0..61`, `chars.charAt(k)` is one character of `chars`. -/
theorem charAt_chars (k : Int) (h0 : 0 ≤ k) (h1 : k < 62) :
    ∃ c, charAt chars k = String.singleton c ∧ c ∈ chars.data := by
  have hlen : k.toNat < chars.data.length := by
    have : chars.data.length = 62 := chars_length
    omega
  refine ⟨chars.data.get ⟨k.toNat, hlen⟩, ?_, List.get_mem _ _ _⟩
  simp only [charAt, if_neg (not_lt.mpr h0), List.get?_eq_get hlen]

/-- For double draws in `[0, 1)`, `generateShortcode` returns six characters of
`chars`. -/
theorem generateShortcode_data (random : Nat → ℚ)
    (hr : ∀ i, isUnitDouble (random i)) :
    ∃ c0 c1 c2 c3 c4 c5 : Char,
      generateShortcode random = String.mk [c0, c1, c2, c3, c4, c5] ∧
      c0 ∈ chars.data ∧ c1 ∈ chars.data ∧ c2 ∈ chars.data ∧
      c3 ∈ chars.data ∧ c4 ∈ chars.data ∧ c5 ∈ chars.data := by
  have hc : ∀ i, ∃ c,
      charAt chars ⌊roundDouble (random i * (chars.length : ℚ))⌋ = String.singleton c ∧
      c ∈ chars.data := fun i =>
    charAt_chars _ (floor_index _ (hr i)).1 (floor_index _ (hr i)).2
  obtain ⟨c0, e0, a0⟩ := hc 0
  obtain ⟨c1, e1, a1⟩ := hc 1
  obtain ⟨c2, e2, a2⟩ := hc 2
  obtain ⟨c3, e3, a3⟩ := hc 3
  obtain ⟨c4, e4, a4⟩ := hc 4
  obtain ⟨c5, e5, a5⟩ := hc 5
  refine ⟨c0, c1, c2, c3, c4, c5, ?_, a0, a1, a2, a3, a4, a5⟩
  have hrange : List.range 6 = [0, 1, 2, 3, 4, 5] := by decide
  simp only [generateShortcode, hrange, List.foldl, e0, e1, e2, e3, e4, e5]
  apply String.ext
  simp [String.singleton]

/-- For double draws in `[0, 1)`, the generated code has length 6 and passes
`isValidShortcode`. -/
theorem generateShortcode_valid (random : Nat → ℚ)
    (hr : ∀ i, isUnitDouble (random i)) :
    (generateShortcode random).length = 6 ∧
      (∀ ch ∈ (generateShortcode random).data, ch ∈ chars.data) ∧
      isValidShortcode (generateShortcode random) = true := by
  obtain ⟨c0, c1, c2, c3, c4, c5, e, a0, a1, a2, a3, a4, a5⟩ := generateShortcode_data random hr
  have hal : ∀ c ∈ chars.data, isAlnum c = true := List.all_eq_true.mp chars_all_alnum
  rw [e]
  refine ⟨rfl, ?_, ?_⟩
  · intro ch hch
    simp only [List.mem_cons, List.mem_singleton, List.not_mem_nil, or_false] at hch
    rcases hch with h | h | h | h | h | h <;> rw [h] <;> assumption
  · simp [isValidShortcode, String.length, hal c0 a0, hal c1 a1, hal c2 a2, hal c3 a3,
      hal c4 a4, hal c5 a5]

/-- The placeholder `my-custom-code` shown in the custom shortcode input is
itself rejected by `isValidShortcode` (14 characters, with hyphens). -/
theorem placeholder_rejected : isValidShortcode "my-custom-code" = false := by decide

/-- A well-formed shortcode is not the empty string. -/
theorem isValidShortcode_ne_empty (c : String) (h : isValidShortcode c = true) : c ≠ "" := by
  intro hc
  subst hc
  simp [isValidShortcode] at h

/-- The failing branch of `handleSubmit`. -/
theorem handleSubmit_reject (env : SubmitEnv) (urls : List Link) (formData : FormData)
    (h : (validate env urls formData).keys.length > 0) :
    handleSubmit env urls formData =
      { urls := urls
        formData := formData
        errors := validate env urls formData
        effects := [Effect.logEvent "VALIDATION_ERROR"
          (LogData.validationError (validate env urls formData))] } := by
  simp only [handleSubmit, if_pos h]

/-- The succeeding branch of `handleSubmit`. -/
theorem handleSubmit_accept (env : SubmitEnv) (urls : List Link) (formData : FormData)
    (h : ¬ (validate env urls formData).keys.length > 0) :
    handleSubmit env urls formData =
      { urls := urls ++ [newUrl env formData]
        formData := { originalUrl := "", validityPeriod := 30, customShortcode := "" }
        errors := Errors.empty
        effects := [Effect.logEvent "URL_CREATED"
          (LogData.urlCreated (newUrl env formData).shortcode formData.originalUrl
            (newUrl env formData).expiryDate)] } := by
  simp only [handleSubmit, if_neg h]

/-- A well-formed custom code that is already stored gets the taken message. -/
theorem validate_taken (env : SubmitEnv) (urls : List Link) (formData : FormData)
    (hc : isValidShortcode formData.customShortcode = true)
    (ht : ∃ u ∈ urls, u.shortcode = formData.customShortcode) :
    (validate env urls formData).customShortcode = some "This shortcode is already taken" := by
  have hne := isValidShortcode_ne_empty _ hc
  have hany := (any_shortcode_iff urls formData.customShortcode).mpr ht
  simp only [validate, hc, hany]
  simp [hne]

/-- A well-formed custom code that is already stored makes `handleSubmit` fail. -/
theorem handleSubmit_taken (env : SubmitEnv) (urls : List Link) (formData : FormData)
    (hc : isValidShortcode formData.customShortcode = true)
    (ht : ∃ u ∈ urls, u.shortcode = formData.customShortcode) :
    (handleSubmit env urls formData).errors.customShortcode =
        some "This shortcode is already taken" ∧
      (handleSubmit env urls formData).urls = urls := by
  have hv := validate_taken env urls formData hc ht
  have hk : (validate env urls formData).keys.length > 0 :=
    (keys_length_pos_iff _).mpr (Or.inr (Or.inr (by rw [hv]; rfl)))
  rw [handleSubmit_reject env urls formData hk]
  exact ⟨hv, rfl⟩

/-- A non-empty custom code is the shortcode of the new link. -/
theorem newUrl_shortcode_custom (env : SubmitEnv) (formData : FormData)
    (h : formData.customShortcode ≠ "") :
    (newUrl env formData).shortcode = formData.customShortcode := by
  simp [newUrl, h]

/-- Claim C2: when the custom shortcode of the form is well formed (accepted by
`isValidShortcode`) and some stored link, expired or not, already has it, then
`handleSubmit` sets the message "This shortcode is already taken" on the field
`customShortcode` and leaves the link list unchanged. In particular, after a
first submission with the same custom shortcode, a valid URL and a validity
period of at least 1, a second submission with that shortcode fails this way. -/
theorem create_custom_shortcode_taken (env env2 : SubmitEnv) (urls : List Link)
    (first formData : FormData)
    (hc : isValidShortcode formData.customShortcode = true) :
    ((∃ u ∈ urls, u.shortcode = formData.customShortcode) →
      (handleSubmit env urls formData).errors.customShortcode =
          some "This shortcode is already taken" ∧
        (handleSubmit env urls formData).urls = urls) ∧
    (first.customShortcode = formData.customShortcode → first.originalUrl ≠ "" →
      env.urlParses first.originalUrl = true → 1 ≤ first.validityPeriod →
      (handleSubmit env2 (handleSubmit env urls first).urls formData).errors.customShortcode =
          some "This shortcode is already taken" ∧
        (handleSubmit env2 (handleSubmit env urls first).urls formData).urls =
          (handleSubmit env urls first).urls) := by
  refine ⟨handleSubmit_taken env urls formData hc, ?_⟩
  intro hsame hurl hparse hv
  apply handleSubmit_taken env2 _ formData hc
  by_cases ht : ∃ u ∈ urls, u.shortcode = formData.customShortcode
  · obtain ⟨u, hu, hcu⟩ := ht
    have hfail := (handleSubmit_taken env urls first (hsame ▸ hc) ⟨u, hu, hsame ▸ hcu⟩).2
    rw [hfail]
    exact ⟨u, hu, hcu⟩
  · have hok : ¬ (validate env urls first).keys.length > 0 := by
      rw [validate_keys_nil_iff]
      refine ⟨hurl, hparse, hv, Or.inr ⟨hsame ▸ hc, ?_⟩⟩
      intro u hu hcu
      exact ht ⟨u, hu, hsame ▸ hcu⟩
    rw [handleSubmit_accept env urls first hok]
    refine ⟨newUrl env first, by simp, ?_⟩
    rw [newUrl_shortcode_custom env first (hsame ▸ isValidShortcode_ne_empty _ hc), hsame]

/-- A submission leaves the list unchanged or appends `newUrl`. -/
theorem handleSubmit_urls (env : SubmitEnv) (urls : List Link) (formData : FormData) :
    (handleSubmit env urls formData).urls = urls ∨
      (¬ (validate env urls formData).keys.length > 0 ∧
        (handleSubmit env urls formData).urls = urls ++ [newUrl env formData]) := by
  by_cases h : (validate env urls formData).keys.length > 0
  · exact Or.inl (by rw [handleSubmit_reject env urls formData h])
  · exact Or.inr ⟨h, by rw [handleSubmit_accept env urls formData h]⟩

/-- A resolution leaves the list unchanged or maps the click update over it. -/
theorem handleRedirect_urls (nowCheck nowClick : Int) (urls : List Link) (shortcode : String) :
    (handleRedirect nowCheck nowClick urls shortcode).urls = urls ∨
      (handleRedirect nowCheck nowClick urls shortcode).urls =
        urls.map (fun u =>
          if u.shortcode == shortcode then
            { u with
              clicks := u.clicks + 1
              clickDetails := u.clickDetails ++
                [{ timestamp := some nowClick, source := "direct",
                   location := "Kanpur, India" }] }
          else u) := by
  unfold handleRedirect
  split
  · exact Or.inl rfl
  · split
    · exact Or.inl rfl
    · exact Or.inr rfl

/-- Link by link, a resolution changes nothing or records exactly one click. -/
theorem handleRedirect_forall₂ (nowCheck nowClick : Int) (urls : List Link)
    (shortcode : String) :
    List.Forall₂
      (fun u v => v = u ∨
        (v.clicks = u.clicks + 1 ∧ v.clickDetails.length = u.clickDetails.length + 1 ∧
          v.shortcode = u.shortcode))
      urls (handleRedirect nowCheck nowClick urls shortcode).urls := by
  rcases handleRedirect_urls nowCheck nowClick urls shortcode with h | h
  · rw [h]
    exact List.forall₂_same.mpr (fun u _ => Or.inl rfl)
  · rw [h, List.forall₂_map_right_iff]
    apply List.forall₂_same.mpr
    intro u _
    by_cases hc : (u.shortcode == shortcode) = true
    · simp [hc]
    · simp [hc]

/-- Claim C6: in every link list reachable from the empty list by `handleSubmit`
and `handleRedirect`, every link has `clicks` equal to the length of
`clickDetails`. The link built by `handleSubmit` has `clicks = 0` and an empty
`clickDetails`, a submission leaves the list unchanged or appends that link, and
`handleRedirect` leaves each link unchanged or adds one to `clicks` together
with exactly one record to `clickDetails`. -/
theorem clicks_eq_log_length (urls : List Link) (h : Reachable urls)
    (env : SubmitEnv) (formData : FormData) (nowCheck nowClick : Int) (shortcode : String) :
    (∀ u ∈ urls, u.clicks = u.clickDetails.length) ∧
    ((newUrl env formData).clicks = 0 ∧ (newUrl env formData).clickDetails = []) ∧
    ((handleSubmit env urls formData).urls = urls ∨
      (handleSubmit env urls formData).urls = urls ++ [newUrl env formData]) ∧
    List.Forall₂
      (fun u v => v = u ∨
        (v.clicks = u.clicks + 1 ∧ v.clickDetails.length = u.clickDetails.length + 1))
      urls (handleRedirect nowCheck nowClick urls shortcode).urls := by
  refine ⟨?_, ⟨rfl, rfl⟩, ?_, ?_⟩
  · induction h with
    | init => intro u hu; cases hu
    | create env0 fd urls0 _ _ ih =>
      rcases handleSubmit_urls env0 urls0 fd with h1 | ⟨_, h1⟩
      · rw [h1]; exact ih
      · rw [h1]
        intro u hu
        rcases List.mem_append.mp hu with hu | hu
        · exact ih u hu
        · rw [List.mem_singleton.mp hu]
          rfl
    | resolve t1 t2 sc urls0 _ ih =>
      rcases handleRedirect_urls t1 t2 urls0 sc with h1 | h1
      · rw [h1]; exact ih
      · rw [h1]
        intro v hv
        obtain ⟨u, hu, rfl⟩ := List.mem_map.mp hv
        have := ih u hu
        by_cases hc : (u.shortcode == sc) = true
        · simp [hc, this]
        · simp [hc, this]
  · rcases handleSubmit_urls env urls formData with h1 | ⟨_, h1⟩
    · exact Or.inl h1
    · exact Or.inr h1
  · exact List.Forall₂.imp (fun _ _ h => h.imp id (fun h => ⟨h.1, h.2.1⟩))
      (handleRedirect_forall₂ nowCheck nowClick urls shortcode)

/-- The shortcode of a link stored by a successful submission is well formed. -/
theorem newUrl_shortcode_valid (env : SubmitEnv) (urls : List Link) (formData : FormData)
    (hr : ∀ i, isUnitDouble (env.random i))
    (hok : ¬ (validate env urls formData).keys.length > 0) :
    isValidShortcode (newUrl env formData).shortcode = true := by
  obtain ⟨_, _, _, h4⟩ := (validate_keys_nil_iff env urls formData).mp hok
  by_cases hne : formData.customShortcode = ""
  · have : (newUrl env formData).shortcode = generateShortcode env.random := by
      simp [newUrl, hne]
    rw [this]
    exact (generateShortcode_valid env.random hr).2.2
  · rw [newUrl_shortcode_custom env formData hne]
    rcases h4 with h4 | ⟨h4, _⟩
    · exact absurd h4 hne
    · exact h4

/-- Every shortcode of a reachable list passes `isValidShortcode`. -/
theorem reachable_shortcodes_valid (urls : List Link) (h : Reachable urls) :
    ∀ u ∈ urls, isValidShortcode u.shortcode = true := by
  induction h with
  | init => intro u hu; cases hu
  | create env fd urls0 _ hr ih =>
    rcases handleSubmit_urls env urls0 fd with h1 | ⟨hok, h1⟩
    · rw [h1]; exact ih
    · rw [h1]
      intro u hu
      rcases List.mem_append.mp hu with hu | hu
      · exact ih u hu
      · rw [List.mem_singleton.mp hu]
        exact newUrl_shortcode_valid env urls0 fd hr hok
  | resolve t1 t2 sc urls0 _ ih =>
    rcases handleRedirect_urls t1 t2 urls0 sc with h1 | h1
    · rw [h1]; exact ih
    · rw [h1]
      intro v hv
      obtain ⟨u, hu, rfl⟩ := List.mem_map.mp hv
      have := ih u hu
      by_cases hc : (u.shortcode == sc) = true
      · simpa [hc] using this
      · simpa [hc] using this

/-- Claim C9: in every link list reachable from the empty list, each stored
shortcode has 3 to 10 characters, all in `a-z`, `A-Z`, `0-9`. A non-empty custom
code that `isValidShortcode` rejects makes `handleSubmit` fail with the message
"Shortcode must be 3-10 alphanumeric characters" and store nothing, so a custom
code is stored only if `isValidShortcode` accepts it; and for all draws of the
random source, each a double in `[0, 1)`, the code built by `generateShortcode`
from the rounded products has exactly 6 characters, each one a character of the
62-character constant `chars`. -/
theorem stored_shortcodes_well_formed (urls : List Link) (h : Reachable urls)
    (env : SubmitEnv) (formData : FormData)
    (random : Nat → ℚ) (hr : ∀ i, isUnitDouble (random i)) :
    (∀ u ∈ urls, 3 ≤ u.shortcode.length ∧ u.shortcode.length ≤ 10 ∧
      ∀ ch ∈ u.shortcode.data, isAlnum ch = true) ∧
    (formData.customShortcode ≠ "" → isValidShortcode formData.customShortcode = false →
      (handleSubmit env urls formData).errors.customShortcode =
          some "Shortcode must be 3-10 alphanumeric characters" ∧
        (handleSubmit env urls formData).urls = urls) ∧
    (formData.customShortcode ≠ "" →
      (handleSubmit env urls formData).urls ≠ urls →
      isValidShortcode formData.customShortcode = true ∧
        (handleSubmit env urls formData).urls =
          urls ++ [newUrl env formData] ∧
        (newUrl env formData).shortcode = formData.customShortcode) ∧
    ((generateShortcode random).length = 6 ∧
      ∀ ch ∈ (generateShortcode random).data, ch ∈ chars.data ∧ isAlnum ch = true) := by
  refine ⟨?_, ?_, ?_, ?_⟩
  · intro u hu
    have hv := reachable_shortcodes_valid urls h u hu
    simp only [isValidShortcode, Bool.and_eq_true, decide_eq_true_eq, List.all_eq_true] at hv
    exact ⟨hv.1.1, hv.1.2, hv.2⟩
  · intro hne hbad
    have hv : (validate env urls formData).customShortcode =
        some "Shortcode must be 3-10 alphanumeric characters" := by
      simp [validate, hne, hbad]
    have hk : (validate env urls formData).keys.length > 0 :=
      (keys_length_pos_iff _).mpr (Or.inr (Or.inr (by rw [hv]; rfl)))
    rw [handleSubmit_reject env urls formData hk]
    exact ⟨hv, rfl⟩
  · intro hne hchg
    rcases handleSubmit_urls env urls formData with h1 | ⟨hok, h1⟩
    · exact absurd h1 hchg
    · obtain ⟨_, _, _, h4⟩ := (validate_keys_nil_iff env urls formData).mp hok
      rcases h4 with h4 | ⟨h4, _⟩
      · exact absurd h4 hne
      · exact ⟨h4, h1, newUrl_shortcode_custom env formData hne⟩
  · obtain ⟨h6, hmem, _⟩ := generateShortcode_valid random hr
    exact ⟨h6, fun ch hch => ⟨hmem ch hch, List.all_eq_true.mp chars_all_alnum ch (hmem ch hch)⟩⟩

/-- Claim C5, amended: for a form with a non-empty URL that the parser accepts, a
validity period `v` of at least 1 and a custom shortcode that is empty or well
formed and not taken, `handleSubmit` appends the new link and clears the
errors. Its `createdAt` is the clock reading of `new Date()`. When
`t + v * 60000` is a time value that a `Date` can hold, `t` being the separate,
earlier reading of `Date.now()`, its `expiryDate` is `t + v * 60000`; so
`expiryDate = createdAt + v * 60000` when moreover both readings are equal. -/
theorem create_expiry_from_clock (env : SubmitEnv) (urls : List Link) (formData : FormData)
    (hurl : formData.originalUrl ≠ "") (hparse : env.urlParses formData.originalUrl = true)
    (hv : 1 ≤ formData.validityPeriod)
    (hcustom : formData.customShortcode = "" ∨
      (isValidShortcode formData.customShortcode = true ∧
        ∀ u ∈ urls, u.shortcode ≠ formData.customShortcode)) :
    (handleSubmit env urls formData).urls = urls ++ [newUrl env formData] ∧
    (handleSubmit env urls formData).errors = Errors.empty ∧
    (newUrl env formData).createdAt = some env.nowCreated ∧
    (-maxTimeValue ≤ env.nowExpiry + formData.validityPeriod * 60000 →
      env.nowExpiry + formData.validityPeriod * 60000 ≤ maxTimeValue →
      (newUrl env formData).expiryDate =
          some (env.nowExpiry + formData.validityPeriod * 60000) ∧
        (env.nowCreated = env.nowExpiry →
          (newUrl env formData).expiryDate =
            (newUrl env formData).createdAt.map
              (fun createdAt => createdAt + formData.validityPeriod * 60000))) := by
  have hok : ¬ (validate env urls formData).keys.length > 0 :=
    (validate_keys_nil_iff env urls formData).mpr ⟨hurl, hparse, hv, hcustom⟩
  rw [handleSubmit_accept env urls formData hok]
  refine ⟨rfl, rfl, rfl, ?_⟩
  intro hlo hhi
  have he : (newUrl env formData).expiryDate =
      some (env.nowExpiry + formData.validityPeriod * 60000) := by
    simp [newUrl, newDate, hlo, hhi]
  refine ⟨he, ?_⟩
  intro hsame
  rw [he]
  simp [newUrl, hsame]

/-- A resolution does not change the shortcodes of the list. -/
theorem resolve_keeps_shortcodes (nowCheck nowClick : Int) (urls : List Link)
    (shortcode : String) :
    (handleRedirect nowCheck nowClick urls shortcode).urls.map Link.shortcode =
      urls.map Link.shortcode := by
  rcases handleRedirect_urls nowCheck nowClick urls shortcode with h | h
  · rw [h]
  · rw [h, List.map_map]
    apply List.map_congr_left
    intro u _
    simp only [Function.comp]
    split <;> rfl

/-- A submission with a custom code keeps the shortcodes pairwise distinct. -/
theorem create_custom_keeps_nodup (env : SubmitEnv) (urls : List Link) (formData : FormData)
    (hne : formData.customShortcode ≠ "")
    (hnd : (urls.map Link.shortcode).Nodup) :
    ((handleSubmit env urls formData).urls.map Link.shortcode).Nodup := by
  rcases handleSubmit_urls env urls formData with h | ⟨hok, h⟩
  · rw [h]; exact hnd
  · obtain ⟨_, _, _, h4⟩ := (validate_keys_nil_iff env urls formData).mp hok
    rcases h4 with h4 | ⟨_, h4⟩
    · exact absurd h4 hne
    · rw [h, List.map_append, List.map_singleton, newUrl_shortcode_custom env formData hne]
      apply List.Nodup.append hnd (List.nodup_singleton _)
      intro c hc1 hc2
      rw [List.mem_singleton] at hc2
      obtain ⟨u, hu, hcu⟩ := List.mem_map.mp hc1
      exact h4 u hu (hcu.trans hc2)

/-- When the code of the new link is carried by no older link, resolving it right after
a successful submission opens the submitted URL and leaves the new link with one click
and one record. -/
theorem resolve_after_fresh_create (env : SubmitEnv) (urls : List Link) (formData : FormData)
    (nowCheck nowClick : Int)
    (hok : ¬ (validate env urls formData).keys.length > 0)
    (hfresh : ∀ u ∈ urls, u.shortcode ≠ (newUrl env formData).shortcode)
    (hlive : dateGt (some nowCheck) (newUrl env formData).expiryDate = false) :
    handleRedirect nowCheck nowClick (handleSubmit env urls formData).urls
        (newUrl env formData).shortcode =
      { urls := urls ++
          [{ newUrl env formData with
             clicks := 1
             clickDetails :=
               [{ timestamp := some nowClick, source := "direct",
                  location := "Kanpur, India" }] }]
        effects :=
          [Effect.logEvent "URL_CLICKED"
            (LogData.urlClicked (newUrl env formData).shortcode formData.originalUrl
              { timestamp := some nowClick, source := "direct", location := "Kanpur, India" }),
           Effect.windowOpen formData.originalUrl "_blank"] } := by
  rw [handleSubmit_accept env urls formData hok]
  have hnone : urls.find? (fun u => u.shortcode == (newUrl env formData).shortcode) = none := by
    rw [List.find?_eq_none]
    intro u hu
    simpa using hfresh u hu
  have hfind : (urls ++ [newUrl env formData]).find?
      (fun u => u.shortcode == (newUrl env formData).shortcode) = some (newUrl env formData) := by
    rw [List.find?_append, hnone]
    simp
  have hmap : urls.map (fun u =>
      if u.shortcode == (newUrl env formData).shortcode then
        { u with
          clicks := u.clicks + 1
          clickDetails := u.clickDetails ++
            [{ timestamp := some nowClick, source := "direct", location := "Kanpur, India" }] }
      else u) = urls := by
    conv_rhs => rw [← List.map_id urls]
    apply List.map_congr_left
    intro u hu
    have : (u.shortcode == (newUrl env formData).shortcode) = false := by
      simpa using hfresh u hu
    simp [this]
  have horig : (newUrl env formData).originalUrl = formData.originalUrl := rfl
  have hclicks : (newUrl env formData).clicks = 0 := rfl
  have hlog : (newUrl env formData).clickDetails = [] := rfl
  simp only [handleRedirect, hfind, hlive, List.map_append, hmap]
  simp [hclicks, hlog, horig]

/-- The draws of `sampleRandom` are doubles in `[0, 1)`. -/
theorem sampleRandom_isUnitDouble : ∀ i, isUnitDouble (sampleRandom i) := by
  intro i
  have hi : i % 6 < 6 := Nat.mod_lt i (by norm_num)
  refine ⟨2 * (i % 6) + 1, 7, ?_, by norm_num, ?_, ?_⟩
  · exact lt_of_lt_of_le (show 2 * (i % 6) + 1 < 12 by omega) (by norm_num)
  · unfold sampleRandom; norm_num
  · unfold sampleRandom
    have : ((2 * (i % 6) + 1 : ℕ) : ℚ) < 12 := by exact_mod_cast (show 2 * (i % 6) + 1 < 12 by omega)
    rw [div_lt_one (by norm_num)]
    linarith

/-- The draw of `edgeRandom` is a double in `[0, 1)`. -/
theorem edgeRandom_isUnitDouble : ∀ i, isUnitDouble (edgeRandom i) := by
  intro i
  refine ⟨1162219258676257, 52, by norm_num, by norm_num, ?_, ?_⟩
  · unfold edgeRandom; norm_num
  · unfold edgeRandom; norm_num

/-- Draw `i` of `sampleRandom` selects the index `i mod 6`: the products are doubles. -/
theorem sampleRandom_index (i : Nat) :
    ⌊roundDouble (sampleRandom i * (chars.length : ℚ))⌋ = ((i % 6 : ℕ) : Int) := by
  have hi : i % 6 < 6 := Nat.mod_lt i (by norm_num)
  rw [chars_length]
  unfold sampleRandom
  generalize i % 6 = j at hi
  interval_cases j
  · rw [roundDouble_exact _ (-2) (31 * 2 ^ 48) (by norm_num) (by norm_num) (by norm_num)
      (by norm_num)]
    rw [Int.floor_eq_iff]; norm_num
  · rw [roundDouble_exact _ 0 (93 * 2 ^ 46) (by norm_num) (by norm_num) (by norm_num)
      (by norm_num)]
    rw [Int.floor_eq_iff]; norm_num
  · rw [roundDouble_exact _ 1 (155 * 2 ^ 45) (by norm_num) (by norm_num) (by norm_num)
      (by norm_num)]
    rw [Int.floor_eq_iff]; norm_num
  · rw [roundDouble_exact _ 1 (217 * 2 ^ 45) (by norm_num) (by norm_num) (by norm_num)
      (by norm_num)]
    rw [Int.floor_eq_iff]; norm_num
  · rw [roundDouble_exact _ 2 (279 * 2 ^ 44) (by norm_num) (by norm_num) (by norm_num)
      (by norm_num)]
    rw [Int.floor_eq_iff]; norm_num
  · rw [roundDouble_exact _ 2 (341 * 2 ^ 44) (by norm_num) (by norm_num) (by norm_num)
      (by norm_num)]
    rw [Int.floor_eq_iff]; norm_num

/-- The draw of `edgeRandom` selects index 16, the floor of the rounded product, while
the floor of the exact product is 15. -/
theorem edgeRandom_index (i : Nat) :
    ⌊roundDouble (edgeRandom i * (chars.length : ℚ))⌋ = 16 ∧
      ⌊edgeRandom i * (chars.length : ℚ)⌋ = 15 := by
  rw [chars_length]
  unfold edgeRandom
  constructor
  · have hx : roundDouble (1162219258676257 / 2 ^ 52 * ((62 : ℕ) : ℚ)) = 16 := by
      rw [roundDouble_of_binade _ 3 (by norm_num) (by norm_num) (by norm_num)]
      have hq : (1162219258676257 / 2 ^ 52 * ((62 : ℕ) : ℚ)) / 2 ^ ((3 : Int) - 52) =
          9007199254740992 - 1 / 4 := by norm_num
      have hfl : ⌊(9007199254740992 - 1 / 4 : ℚ)⌋ = 9007199254740991 := by
        rw [Int.floor_eq_iff]; norm_num
      have hr : roundTiesEven (9007199254740992 - 1 / 4) = 9007199254740992 := by
        unfold roundTiesEven
        rw [hfl]
        norm_num
      rw [hq, hr]
      norm_num
    rw [hx]
    norm_num
  · rw [Int.floor_eq_iff]; norm_num

/-- With the draws of `sampleRandom` the generated code is `abcdef`. -/
theorem generateShortcode_sample : generateShortcode sampleRandom = "abcdef" := by
  simp only [generateShortcode, sampleRandom_index]
  decide

/-- With the draws of `edgeRandom` the generated code is `qqqqqq`: the rounded
product selects index 16 where the exact product would select index 15. -/
theorem generateShortcode_edge : generateShortcode edgeRandom = "qqqqqq" := by
  simp only [generateShortcode, (edgeRandom_index _).1]
  decide

/-- The list `oneLink`, evaluated. -/
theorem oneLink_eq : oneLink =
    [{ id := 1000, originalUrl := "https://example.com/old", shortcode := "abcdef",
       shortUrl := "http://localhost:3000/abcdef", expiryDate := some 1801000,
       createdAt := some 1000, clicks := 0, clickDetails := [] }] := by
  decide

/-- The link built by the second submission, evaluated. -/
theorem newUrl_second : newUrl secondEnv autoForm =
    { id := 2000, originalUrl := "https://example.com/new", shortcode := "abcdef",
      shortUrl := "http://localhost:3000/abcdef", expiryDate := some 1802000,
      createdAt := some 2000, clicks := 0, clickDetails := [] } := by
  have h : generateShortcode secondEnv.random = "abcdef" := generateShortcode_sample
  simp only [newUrl, h]
  decide

/-- The list `twoLinks`, evaluated. -/
theorem twoLinks_eq : twoLinks =
    [{ id := 1000, originalUrl := "https://example.com/old", shortcode := "abcdef",
       shortUrl := "http://localhost:3000/abcdef", expiryDate := some 1801000,
       createdAt := some 1000, clicks := 0, clickDetails := [] },
     { id := 2000, originalUrl := "https://example.com/new", shortcode := "abcdef",
       shortUrl := "http://localhost:3000/abcdef", expiryDate := some 1802000,
       createdAt := some 2000, clicks := 0, clickDetails := [] }] := by
  have hok : ¬ (validate secondEnv oneLink autoForm).keys.length > 0 := by
    rw [validate_keys_nil_iff]
    exact ⟨by decide, by decide, by decide, Or.inl rfl⟩
  unfold twoLinks
  rw [handleSubmit_accept secondEnv oneLink autoForm hok, newUrl_second, oneLink_eq]
  rfl

/-- The list `twoLinks` is reachable. -/
theorem twoLinks_reachable : Reachable twoLinks :=
  Reachable.create secondEnv autoForm oneLink
    (Reachable.create firstEnv customForm [] Reachable.init sampleRandom_isUnitDouble)
    sampleRandom_isUnitDouble

/-- Claim C1, evaluated at the failing run: submit the custom code `abcdef`, then
submit a form without custom code while `Math.random()` draws the indices
0, 1, 2, 3, 4, 5. The list reached holds two links with the shortcode `abcdef`. -/
theorem auto_shortcode_duplicates_custom :
    Reachable twoLinks ∧
    twoLinks.map Link.shortcode = ["abcdef", "abcdef"] ∧
    ¬ (twoLinks.map Link.shortcode).Nodup := by
  refine ⟨twoLinks_reachable, ?_, ?_⟩
  · rw [twoLinks_eq]; rfl
  · rw [twoLinks_eq]; decide

/-- Claim C3, evaluated at the failing run: on the list holding a link with code
`abcdef` for `https://example.com/old`, a submission without custom code stores
a link `L` for `https://example.com/new` whose generated code is again `abcdef`.
`handleRedirect` on `abcdef`, before the expiry of `L`, opens the URL of the
older link and not `L.originalUrl`. -/
theorem resolve_after_collision_opens_older_link :
    (handleSubmit secondEnv oneLink autoForm).urls = oneLink ++ [newUrl secondEnv autoForm] ∧
    (newUrl secondEnv autoForm).shortcode = "abcdef" ∧
    (newUrl secondEnv autoForm).originalUrl = "https://example.com/new" ∧
    (newUrl secondEnv autoForm).expiryDate = some 1802000 ∧
    openedUrls (handleRedirect 2000 2000
      (handleSubmit secondEnv oneLink autoForm).urls "abcdef").effects =
        ["https://example.com/old"] := by
  have h2 : (handleSubmit secondEnv oneLink autoForm).urls = twoLinks := rfl
  refine ⟨?_, ?_, ?_, ?_, ?_⟩
  · rw [h2, twoLinks_eq, newUrl_second, oneLink_eq]; rfl
  · rw [newUrl_second]
  · rw [newUrl_second]
  · rw [newUrl_second]
  · rw [h2, twoLinks_eq]; decide

/-- Claim C5 fails as stated. With a valid URL, `v = 1` and no custom code, when
the clock moves from 1000 ms to 1001 ms between the two readings, the stored
link has `createdAt = 1001` and `expiryDate = 61000`, not `1001 + 60000`. -/
theorem expiry_differs_from_createdAt_plus_validity :
    (oneMinuteForm.originalUrl ≠ "" ∧ tickEnv.urlParses oneMinuteForm.originalUrl = true ∧
      1 ≤ oneMinuteForm.validityPeriod ∧ oneMinuteForm.customShortcode = "") ∧
    (handleSubmit tickEnv [] oneMinuteForm).urls.map
        (fun link => (link.createdAt, link.expiryDate)) = [(some 1001, some 61000)] ∧
    (61000 : Int) ≠ 1001 + oneMinuteForm.validityPeriod * 60000 := by
  have hok1 : ¬ (validate tickEnv [] oneMinuteForm).keys.length > 0 := by decide
  refine ⟨by decide, ?_, by decide⟩
  rw [handleSubmit_accept tickEnv [] oneMinuteForm hok1]
  decide

/-- A missed case of the validation, outside claim C5: the validity period is
checked from below only. The period 999999999999999 passes, and the time value
of the expiry then exceeds what a `Date` can hold: the link is stored with the
Invalid Date as `expiryDate`, which `handleRedirect` never finds expired and
the statistics never count as active. -/
theorem huge_validity_stores_invalid_date :
    (handleSubmit firstEnv [] hugeForm).urls.map
        (fun link => (link.createdAt, link.expiryDate)) = [(some 1000, none)] ∧
    (∀ now : Int, dateGt (some now) none = false ∧ dateLe (some now) none = false) := by
  have hok2 : ¬ (validate firstEnv [] hugeForm).keys.length > 0 := by decide
  refine ⟨?_, fun now => ⟨rfl, rfl⟩⟩
  rw [handleSubmit_accept firstEnv [] hugeForm hok2]
  decide

/-- Claim C7: when the form fails validation (empty URL, URL rejected by the
parser, validity period below 1, or a non-empty custom shortcode that is
malformed or already taken), `handleSubmit` leaves the link list, hence the
number of links, unchanged, records at least one field-keyed message (the one
of each failing field as listed) and logs `VALIDATION_ERROR`. In particular
`create("not-a-url", 30)` stores nothing when the parser rejects `not-a-url`. -/
theorem create_invalid_stores_nothing (env : SubmitEnv) (urls : List Link)
    (formData : FormData)
    (h : formData.originalUrl = "" ∨ env.urlParses formData.originalUrl = false ∨
      formData.validityPeriod < 1 ∨
      (formData.customShortcode ≠ "" ∧
        (isValidShortcode formData.customShortcode = false ∨
          ∃ u ∈ urls, u.shortcode = formData.customShortcode))) :
    (handleSubmit env urls formData).urls = urls ∧
    totalLinks (handleSubmit env urls formData).urls = totalLinks urls ∧
    (handleSubmit env urls formData).errors.keys ≠ [] ∧
    (handleSubmit env urls formData).effects =
      [Effect.logEvent "VALIDATION_ERROR"
        (LogData.validationError (handleSubmit env urls formData).errors)] ∧
    (formData.originalUrl = "" →
      (handleSubmit env urls formData).errors.originalUrl = some "Original URL is required") ∧
    (formData.originalUrl ≠ "" → env.urlParses formData.originalUrl = false →
      (handleSubmit env urls formData).errors.originalUrl = some "Please enter a valid URL") ∧
    (formData.validityPeriod < 1 →
      (handleSubmit env urls formData).errors.validityPeriod =
        some "Validity period must be at least 1 minute") ∧
    (formData.customShortcode ≠ "" → isValidShortcode formData.customShortcode = false →
      (handleSubmit env urls formData).errors.customShortcode =
        some "Shortcode must be 3-10 alphanumeric characters") ∧
    (isValidShortcode formData.customShortcode = true →
      (∃ u ∈ urls, u.shortcode = formData.customShortcode) →
      (handleSubmit env urls formData).errors.customShortcode =
        some "This shortcode is already taken") ∧
    (env.urlParses "not-a-url" = false →
      (handleSubmit env urls
        { originalUrl := "not-a-url", validityPeriod := 30, customShortcode := "" }).urls =
        urls) := by
  have hk : (validate env urls formData).keys.length > 0 := by
    by_contra hn
    obtain ⟨h1, h2, h3, h4⟩ := (validate_keys_nil_iff env urls formData).mp hn
    rcases h with h | h | h | ⟨hne, h | ⟨u, hu, hcu⟩⟩
    · exact h1 h
    · rw [h2] at h; exact Bool.noConfusion h
    · omega
    · rcases h4 with h4 | ⟨h4, _⟩
      · exact hne h4
      · rw [h4] at h; exact Bool.noConfusion h
    · rcases h4 with h4 | ⟨_, h4⟩
      · exact hne h4
      · exact h4 u hu hcu
  rw [handleSubmit_reject env urls formData hk]
  refine ⟨rfl, rfl, ?_, rfl, ?_, ?_, ?_, ?_, ?_, ?_⟩
  · intro hnil
    rw [hnil] at hk
    exact absurd hk (by decide)
  · intro h1
    simp [validate, h1]
  · intro h1 h2
    simp [validate, isValidUrl, h1, h2]
  · intro h3
    simp [validate, h3]
  · intro h4 h5
    simp [validate, h4, h5]
  · intro h5 h6
    exact validate_taken env urls formData h5 h6
  · intro hp
    have hk2 : (validate env urls
        { originalUrl := "not-a-url", validityPeriod := 30, customShortcode := "" }).keys.length
          > 0 := by
      by_contra hn
      obtain ⟨_, h2, _, _⟩ := (validate_keys_nil_iff env urls _).mp hn
      rw [hp] at h2
      exact Bool.noConfusion h2
    rw [handleSubmit_reject env urls _ hk2]

/-- Claim C10: when no stored link has the shortcode, `handleRedirect` only logs
`URL_NOT_FOUND`: it opens no URL and leaves the link list unchanged. -/
theorem resolve_unknown_not_found (nowCheck nowClick : Int) (urls : List Link)
    (shortcode : String) (h : ∀ u ∈ urls, u.shortcode ≠ shortcode) :
    handleRedirect nowCheck nowClick urls shortcode =
      { urls := urls
        effects := [Effect.logEvent "URL_NOT_FOUND" (LogData.shortcodeOnly shortcode)] } ∧
    openedUrls (handleRedirect nowCheck nowClick urls shortcode).effects = [] ∧
    (handleRedirect nowCheck nowClick urls shortcode).urls = urls := by
  have hfind : urls.find? (fun u => u.shortcode == shortcode) = none := by
    rw [List.find?_eq_none]
    intro u hu
    simpa using h u hu
  have heq : handleRedirect nowCheck nowClick urls shortcode =
      { urls := urls
        effects := [Effect.logEvent "URL_NOT_FOUND" (LogData.shortcodeOnly shortcode)] } := by
    simp only [handleRedirect, hfind]
  rw [heq]
  exact ⟨rfl, rfl, rfl⟩

/-- Claim C4: when the link found for the shortcode (the first one carrying it)
has an `expiryDate` strictly before the clock reading, `handleRedirect` logs
`URL_EXPIRED` and raises the alert, opens no URL, and leaves the link list
unchanged, so every counter `clicks` and every `clickDetails` is unchanged. -/
theorem resolve_expired_no_change (nowCheck nowClick : Int) (urls : List Link)
    (shortcode : String) (url : Link) (expiry : Int)
    (hfind : urls.find? (fun u => u.shortcode == shortcode) = some url)
    (hdate : url.expiryDate = some expiry) (hlt : expiry < nowCheck) :
    handleRedirect nowCheck nowClick urls shortcode =
      { urls := urls
        effects :=
          [Effect.logEvent "URL_EXPIRED" (LogData.shortcodeOnly shortcode),
           Effect.alert "This shortened URL has expired"] } ∧
    openedUrls (handleRedirect nowCheck nowClick urls shortcode).effects = [] ∧
    (handleRedirect nowCheck nowClick urls shortcode).urls = urls ∧
    (handleRedirect nowCheck nowClick urls shortcode).urls.map Link.clicks =
      urls.map Link.clicks ∧
    (handleRedirect nowCheck nowClick urls shortcode).urls.map Link.clickDetails =
      urls.map Link.clickDetails := by
  have hgt : dateGt (some nowCheck) url.expiryDate = true := by
    rw [hdate]
    simp [dateGt, hlt]
  have heq : handleRedirect nowCheck nowClick urls shortcode =
      { urls := urls
        effects :=
          [Effect.logEvent "URL_EXPIRED" (LogData.shortcodeOnly shortcode),
           Effect.alert "This shortened URL has expired"] } := by
    simp only [handleRedirect, hfind, hgt, if_true]
  rw [heq]
  exact ⟨rfl, rfl, rfl, rfl, rfl⟩

/-- The filter of the active links returns at most as many links as it is given. -/
theorem activeFrom_length_le (clock : Nat → Int) (urls : List Link) :
    ∀ i, (activeFrom clock i urls).length ≤ urls.length := by
  induction urls with
  | nil => intro i; simp [activeFrom]
  | cons url rest ih =>
    intro i
    simp only [activeFrom]
    split
    · simpa using ih (i + 1)
    · exact Nat.le_succ_of_le (ih (i + 1))

/-- With a clock standing still the filter of the active links is a plain filter. -/
theorem activeFrom_const (now : Int) (urls : List Link) :
    ∀ i, activeFrom (fun _ => now) i urls =
      urls.filter (fun url => dateLe (some now) url.expiryDate) := by
  induction urls with
  | nil => intro i; simp [activeFrom]
  | cons url rest ih =>
    intro i
    simp only [activeFrom, List.filter_cons, ih (i + 1)]

/-- The `reduce` of the clicks, from any start value. -/
theorem foldl_clicks (urls : List Link) :
    ∀ acc, urls.foldl (fun sum url => sum + url.clicks) acc =
      acc + (urls.map Link.clicks).sum := by
  induction urls with
  | nil => intro acc; simp
  | cons url rest ih =>
    intro acc
    simp only [List.foldl_cons, ih, List.map_cons, List.sum_cons]
    omega

/-- Claim C8: for every link list and all clock readings, the number of active
links is at most the number of links, and the total of clicks computed by the
`reduce` of the statistics page is the sum of `clicks` over the list. The
number of links is the list length, and for a clock standing at `now` the
number of active links is the number of links with `now <= expiryDate`. -/
theorem summary_figures (clock : Nat → Int) (now : Int) (urls : List Link) :
    activeLinks clock urls ≤ totalLinks urls ∧
    totalClicks urls = (urls.map Link.clicks).sum ∧
    totalLinks urls = urls.length ∧
    activeLinks (fun _ => now) urls =
      urls.countP (fun url => dateLe (some now) url.expiryDate) := by
  refine ⟨activeFrom_length_le clock urls 0, ?_, rfl, ?_⟩
  · simp [totalClicks, foldl_clicks]
  · simp [activeLinks, activeFrom_const, List.countP_eq_length_filter]

/-- The list `oneLink` is reachable. -/
theorem oneLink_reachable : Reachable oneLink :=
  Reachable.create firstEnv customForm [] Reachable.init sampleRandom_isUnitDouble

/-- Claim C2 at a concrete run: `customForm` submitted twice from the empty list. -/
theorem create_custom_shortcode_taken_witness :
    isValidShortcode customForm.customShortcode = true ∧
    (customForm.customShortcode = customForm.customShortcode ∧ customForm.originalUrl ≠ "" ∧
      firstEnv.urlParses customForm.originalUrl = true ∧ 1 ≤ customForm.validityPeriod) ∧
    (handleSubmit secondEnv (handleSubmit firstEnv [] customForm).urls
        customForm).errors.customShortcode = some "This shortcode is already taken" ∧
    (handleSubmit secondEnv (handleSubmit firstEnv [] customForm).urls customForm).urls =
      (handleSubmit firstEnv [] customForm).urls :=
  ⟨by decide, ⟨rfl, by decide, by decide, by decide⟩,
    (create_custom_shortcode_taken firstEnv secondEnv [] customForm customForm (by decide)).2
      rfl (by decide) (by decide) (by decide)⟩

/-- Claim C4 at a concrete run: the link of `oneLink` expires at 1801000 ms and is
resolved at 1801001 ms. -/
theorem resolve_expired_no_change_witness :
    oneLink.find? (fun u => u.shortcode == "abcdef") = some (newUrl firstEnv customForm) ∧
    (newUrl firstEnv customForm).expiryDate = some 1801000 ∧
    (1801000 : Int) < 1801001 ∧
    openedUrls (handleRedirect 1801001 1801001 oneLink "abcdef").effects = [] ∧
    (handleRedirect 1801001 1801001 oneLink "abcdef").urls = oneLink :=
  ⟨by decide, by decide, by decide,
    (resolve_expired_no_change 1801001 1801001 oneLink "abcdef" (newUrl firstEnv customForm)
      1801000 (by decide) (by decide) (by decide)).2.1,
    (resolve_expired_no_change 1801001 1801001 oneLink "abcdef" (newUrl firstEnv customForm)
      1801000 (by decide) (by decide) (by decide)).2.2.1⟩

/-- Claim C5, amended, at a concrete run: `customForm` submitted on the empty list
with every clock reading at 1000 ms. -/
theorem create_expiry_from_clock_witness :
    (customForm.originalUrl ≠ "" ∧ firstEnv.urlParses customForm.originalUrl = true ∧
      1 ≤ customForm.validityPeriod ∧ isValidShortcode customForm.customShortcode = true) ∧
    (handleSubmit firstEnv [] customForm).urls = [] ++ [newUrl firstEnv customForm] ∧
    (newUrl firstEnv customForm).createdAt = some 1000 ∧
    (newUrl firstEnv customForm).expiryDate = some (1000 + 30 * 60000) ∧
    (newUrl firstEnv customForm).expiryDate =
      (newUrl firstEnv customForm).createdAt.map (fun createdAt => createdAt + 30 * 60000) :=
  ⟨⟨by decide, by decide, by decide, by decide⟩,
    (create_expiry_from_clock firstEnv [] customForm (by decide) (by decide) (by decide)
      (Or.inr ⟨by decide, fun _ hu => nomatch hu⟩)).1,
    (create_expiry_from_clock firstEnv [] customForm (by decide) (by decide) (by decide)
      (Or.inr ⟨by decide, fun _ hu => nomatch hu⟩)).2.2.1,
    ((create_expiry_from_clock firstEnv [] customForm (by decide) (by decide) (by decide)
      (Or.inr ⟨by decide, fun _ hu => nomatch hu⟩)).2.2.2 (by decide) (by decide)).1,
    ((create_expiry_from_clock firstEnv [] customForm (by decide) (by decide) (by decide)
      (Or.inr ⟨by decide, fun _ hu => nomatch hu⟩)).2.2.2 (by decide) (by decide)).2 rfl⟩

/-- Claim C6 at a concrete run: one submission followed by one resolution. -/
theorem clicks_eq_log_length_witness :
    Reachable (handleRedirect 2000 2000 oneLink "abcdef").urls ∧
    (handleRedirect 2000 2000 oneLink "abcdef").urls.map Link.clicks = [1] ∧
    (∀ u ∈ (handleRedirect 2000 2000 oneLink "abcdef").urls,
      u.clicks = u.clickDetails.length) :=
  ⟨Reachable.resolve 2000 2000 "abcdef" oneLink oneLink_reachable, by decide,
    (clicks_eq_log_length (handleRedirect 2000 2000 oneLink "abcdef").urls
      (Reachable.resolve 2000 2000 "abcdef" oneLink oneLink_reachable)
      firstEnv customForm 3000 3000 "abcdef").1⟩

/-- Claim C7 at a concrete run: the form of `create("not-a-url", 30)` submitted on
`oneLink`. -/
theorem create_invalid_stores_nothing_witness :
    firstEnv.urlParses notAUrlForm.originalUrl = false ∧
    (handleSubmit firstEnv oneLink notAUrlForm).urls = oneLink ∧
    (handleSubmit firstEnv oneLink notAUrlForm).errors.originalUrl =
      some "Please enter a valid URL" :=
  ⟨by decide,
    (create_invalid_stores_nothing firstEnv oneLink notAUrlForm (Or.inr (Or.inl (by decide)))).1,
    (create_invalid_stores_nothing firstEnv oneLink notAUrlForm
      (Or.inr (Or.inl (by decide)))).2.2.2.2.2.1 (by decide) (by decide)⟩

/-- Claim C9 at a concrete run: the list `oneLink` and the draws `sampleRandom`. -/
theorem stored_shortcodes_well_formed_witness :
    Reachable oneLink ∧ (∀ i, isUnitDouble (sampleRandom i)) ∧
    oneLink.map Link.shortcode = ["abcdef"] ∧
    (∀ u ∈ oneLink, 3 ≤ u.shortcode.length ∧ u.shortcode.length ≤ 10 ∧
      ∀ ch ∈ u.shortcode.data, isAlnum ch = true) ∧
    (generateShortcode sampleRandom).length = 6 :=
  ⟨oneLink_reachable, sampleRandom_isUnitDouble, by decide,
    (stored_shortcodes_well_formed oneLink oneLink_reachable firstEnv customForm sampleRandom
      sampleRandom_isUnitDouble).1,
    (stored_shortcodes_well_formed oneLink oneLink_reachable firstEnv customForm sampleRandom
      sampleRandom_isUnitDouble).2.2.2.1⟩

/-- Claim C10 at a concrete run: the code `zzz999` resolved on `oneLink`. -/
theorem resolve_unknown_not_found_witness :
    (∀ u ∈ oneLink, u.shortcode ≠ "zzz999") ∧
    handleRedirect 2000 2000 oneLink "zzz999" =
      { urls := oneLink
        effects := [Effect.logEvent "URL_NOT_FOUND" (LogData.shortcodeOnly "zzz999")] } :=
  ⟨by decide, (resolve_unknown_not_found 2000 2000 oneLink "zzz999" (by decide)).1⟩

end URLShortener
